import Mathlib

/-!
Verification model of the Diamond Bandit arcade engine
(src/src/components/DiamondBandit.tsx).

The engine's numeric state (positions, velocities, sizes) is embedded over
the exact reals; `Math.random()` is embedded as an explicit stream
`g : ℕ → ℝ` of raw samples together with a cursor `k : ℕ` that each consuming
operation advances, so that every function of the engine becomes a pure
function of its inputs and of the sampled stream.  Rendering, audio and DOM
concerns of the component are outside the model (the spec scopes them out).
-/

set_option maxHeartbeats 1000000
set_option maxRecDepth 4096

noncomputable section

namespace DiamondBandit

/-- `type Vec = { x: number; y: number }` -/
structure Vec where
  x : ℝ
  y : ℝ
deriving DecidableEq

/-- An axis-aligned box `{ x, y, w, h }` as used by `aabb`. -/
structure Box where
  x : ℝ
  y : ℝ
  w : ℝ
  h : ℝ
deriving DecidableEq

/-- `type EnemyKind = 'square' | 'ball' | 'shard' | 'gust' | 'void'` -/
inductive EnemyKind where
  | square | ball | shard | gust | voidk
deriving DecidableEq, BEq, Repr

/-- `type EnemyMode = 'wander' | 'seek'` -/
inductive EnemyMode where
  | wander | seek
deriving DecidableEq, Repr

/-- The `Enemy` record of the source. -/
structure Enemy where
  pos : Vec
  vel : Vec
  size : ℝ
  color : String
  kind : EnemyKind
  alpha : ℝ
  speed : ℝ
  detectRadius : ℝ
  mode : EnemyMode
  willSeek : Bool

/-- The payload of the `playing` game state:
`{ kind: 'playing'; level; enemies; player; diamond }`. -/
structure Playing where
  level : ℕ
  enemies : List Enemy
  player : Vec
  diamond : Vec

/-- `type GameState = menu | playing | victory`. -/
inductive GameState where
  | menu
  | playing (st : Playing)
  | victory

/-- `const CANVAS_LOGICAL: Vec = { x: 900, y: 540 }` -/
def CANVAS_LOGICAL : Vec := ⟨900, 540⟩

/-- `const PLAYER_SIZE = 20` -/
def PLAYER_SIZE : ℝ := 20

/-- `const ENEMY_SIZE = 20` -/
def ENEMY_SIZE : ℝ := 20

/-- `const DIAMOND_SIZE = 24` -/
def DIAMOND_SIZE : ℝ := 24

/-- `const PLAYER_SPEED = 240` -/
def PLAYER_SPEED : ℝ := 240

/-- `const ENEMY_SPEED_BASE = 140` -/
def ENEMY_SPEED_BASE : ℝ := 140

/-- `const LEVEL_ENEMIES = [3, 5, 7, 10, 12]` -/
def LEVEL_ENEMIES : List ℕ := [3, 5, 7, 10, 12]

/-- `rand(min, max) = Math.random() * (max - min) + min`, with the raw
`Math.random()` sample `r` made explicit. -/
def rand (r lo hi : ℝ) : ℝ := r * (hi - lo) + lo

/-- `clamp(n, min, max) = Math.min(Math.max(n, min), max)` -/
def clamp (n lo hi : ℝ) : ℝ := min (max n lo) hi

/-- `Math.hypot(x, y)` -/
def hypot (x y : ℝ) : ℝ := Real.sqrt (x ^ 2 + y ^ 2)

/-- `Math.round(x)` (round half toward positive infinity). -/
def jsRound (x : ℝ) : ℝ := (⌊x + 1 / 2⌋ : ℤ)

/-- `aabb(a, b)`: strict axis-aligned box overlap. -/
def aabb (a b : Box) : Prop :=
  a.x < b.x + b.w ∧ a.x + a.w > b.x ∧ a.y < b.y + b.h ∧ a.y + a.h > b.y

instance (a b : Box) : Decidable (aabb a b) := by
  unfold aabb; infer_instance

/-- `diamondHit(player, diamond)`: the diamond treated as an AABB. -/
def diamondHit (player diamond : Vec) : Prop :=
  aabb ⟨player.x, player.y, PLAYER_SIZE, PLAYER_SIZE⟩
    ⟨diamond.x - DIAMOND_SIZE / 2, diamond.y - DIAMOND_SIZE / 2, DIAMOND_SIZE, DIAMOND_SIZE⟩

instance (p d : Vec) : Decidable (diamondHit p d) := by
  unfold diamondHit; infer_instance

/-- The retry loop of `randomNonOverlappingPos`: up to `fuel` attempts, each
consuming two stream samples; `none` when the budget is exhausted (the caller
substitutes the fallback), `some` with the accepted point otherwise. -/
def placePosCore (pad : ℝ) (existing : List Box) (g : ℕ → ℝ) : ℕ → ℕ → Option Vec × ℕ
  | 0, k => (none, k)
  | fuel + 1, k =>
    let x := rand (g k) pad (CANVAS_LOGICAL.x - pad)
    let y := rand (g (k + 1)) pad (CANVAS_LOGICAL.y - pad)
    let box : Box := ⟨x - pad / 2, y - pad / 2, pad, pad⟩
    if ∃ e ∈ existing, aabb e box then placePosCore pad existing g fuel (k + 2)
    else (some ⟨x, y⟩, k + 2)

/-- `randomNonOverlappingPos(pad, existing)`: rejection sampling with a
deterministic `{ x: pad, y: pad }` fallback on exhaustion.  The source runs
the loop `for (let i = 0; i < 1000; i++)`; callers pass `fuel = 1000`. -/
def randomNonOverlappingPos (pad : ℝ) (existing : List Box) (g : ℕ → ℝ)
    (fuel k : ℕ) : Vec × ℕ :=
  let r := placePosCore pad existing g fuel k
  (r.1.getD ⟨pad, pad⟩, r.2)

/-- The gameplay-relevant fields of a theme returned by `themeForLevel`
(the canvas-painting closure `bg` is rendering and is not modelled). -/
structure Theme where
  name : String
  enemyKind : EnemyKind
  enemyColor : String
  enemySize : ℝ
  speedBonus : ℝ

/-- `themeForLevel(level)`, gameplay fields only. -/
def themeForLevel (level : ℕ) : Theme :=
  let idx := max 1 (min level 5)
  if idx = 1 then ⟨"Desert", EnemyKind.square, "#b45309", 20, 0⟩
  else if idx = 2 then ⟨"Ice", EnemyKind.shard, "#38bdf8", 22, 10⟩
  else if idx = 3 then ⟨"Fire", EnemyKind.ball, "#fb923c", 20, 20⟩
  else if idx = 4 then ⟨"Wind", EnemyKind.gust, "#64748b", 26, 30⟩
  else ⟨"Void", EnemyKind.voidk, "#7c3aed", 20, 25⟩

/-- `const homingKinds: EnemyKind[] = ['ball', 'void', 'shard']` -/
def homingKinds : List EnemyKind := [EnemyKind.ball, EnemyKind.voidk, EnemyKind.shard]

/-- One iteration of the enemy-spawning loop of `startLevel`: places the
enemy, rolls its speed, heading and seek-eligibility, and appends its
bounding box to the placed-items list.  Stream consumption mirrors the
source exactly: the placement consumes two samples per attempt, then one
sample for the speed jitter, two for the heading, and — only when the enemy
is homing-eligible, because `&&` short-circuits before `Math.random()` —
one for the `willSeek` coin flip. -/
def placeOneEnemy (level : ℕ) (theme : Theme) (eligible : Bool) (g : ℕ → ℝ)
    (items : List Box) (k : ℕ) : Enemy × List Box × ℕ :=
  let pr := randomNonOverlappingPos 80 items g 1000 k
  let pos := pr.1
  let k1 := pr.2
  let spd := ENEMY_SPEED_BASE + theme.speedBonus + (level : ℝ) * 10 + rand (g k1) (-10) 10
  let nx := rand (g (k1 + 1)) (-1) 1
  let ny := rand (g (k1 + 2)) (-1) 1
  let len := if hypot nx ny = 0 then 1 else hypot nx ny
  let vel : Vec := ⟨nx / len * spd, ny / len * spd⟩
  let scaledSize := jsRound (theme.enemySize + ((level : ℝ) - 1) * 2)
  let baseDetect : ℝ := 120 + (level : ℝ) * 30
  let detectRadius := if theme.name = "Void" then jsRound (baseDetect * 0.8) else baseDetect
  let followProb : ℝ := if theme.name = "Void" then 0.35 else 0.5
  let willSeek := eligible && (if g (k1 + 3) < followProb then true else false)
  let k2 := if eligible then k1 + 4 else k1 + 3
  let e : Enemy :=
    { pos := ⟨pos.x, pos.y⟩, vel := vel, size := scaledSize, color := theme.enemyColor,
      kind := theme.enemyKind,
      alpha := if theme.enemyKind = EnemyKind.gust then 0.6 else 1,
      speed := spd, detectRadius := detectRadius, mode := EnemyMode.wander,
      willSeek := willSeek }
  (e, items ++ [⟨pos.x - scaledSize / 2, pos.y - scaledSize / 2, scaledSize, scaledSize⟩], k2)

/-- The `for (let i = 0; i < count; i++)` enemy loop of `startLevel`. -/
def placeEnemies (level : ℕ) (theme : Theme) (eligible : Bool) (g : ℕ → ℝ) :
    ℕ → List Box → ℕ → List Enemy × List Box × ℕ
  | 0, items, k => ([], items, k)
  | n + 1, items, k =>
    let r := placeOneEnemy level theme eligible g items k
    let rest := placeEnemies level theme eligible g n r.2.1 r.2.2
    (r.1 :: rest.1, rest.2.1, rest.2.2)

/-- The enemy count `LEVEL_ENEMIES[clamp(level - 1, 0, LEVEL_ENEMIES.length - 1)]`
(natural-number subtraction already clamps the lower end at 0). -/
def countForLevel (level : ℕ) : ℕ :=
  LEVEL_ENEMIES.getD (min (level - 1) (LEVEL_ENEMIES.length - 1)) 0

/-- `startLevel(level)`: builds the fresh `playing` state.  Sound side
effects are not modelled; the returned cursor records total stream
consumption. -/
def startLevel (level : ℕ) (g : ℕ → ℝ) (k : ℕ) : Playing × ℕ :=
  let theme := themeForLevel level
  let homingEnabledThisLevel : Bool := theme.name != "Wind"
  let eligible : Bool := homingEnabledThisLevel && homingKinds.contains theme.enemyKind
  let player : Vec := ⟨40, CANVAS_LOGICAL.y - 60⟩
  let items : List Box := [⟨player.x, player.y, PLAYER_SIZE, PLAYER_SIZE⟩]
  let dr := randomNonOverlappingPos 120 items g 1000 k
  let diamond := dr.1
  let items2 := items ++ [⟨diamond.x - 12, diamond.y - 12, 24, 24⟩]
  let pe := placeEnemies level theme eligible g (countForLevel level) items2 dr.2
  ({ level := level, enemies := pe.1, player := player, diamond := diamond }, pe.2.2)

/-- The WASD key flags sampled by `update` (the space/enter keys only matter
outside the playing state). -/
structure Input where
  w : Bool
  a : Bool
  s : Bool
  d : Bool

/-- The player-movement section of `update`: normalized intent times
`PLAYER_SPEED * dt`, clamped into the arena.  `Math.hypot(move.x, move.y) || 1`
guards the idle (zero-intent) case. -/
def movePlayer (keys : Input) (p : Vec) (dt : ℝ) : Vec :=
  let mx : ℝ := (if keys.a then -1 else 0) + (if keys.d then 1 else 0)
  let my : ℝ := (if keys.w then -1 else 0) + (if keys.s then 1 else 0)
  let len := if hypot mx my = 0 then 1 else hypot mx my
  ⟨clamp (p.x + mx / len * PLAYER_SPEED * dt) 0 (CANVAS_LOGICAL.x - PLAYER_SIZE),
   clamp (p.y + my / len * PLAYER_SPEED * dt) 0 (CANVAS_LOGICAL.y - PLAYER_SIZE)⟩

/-- The displacement from an enemy's center to the player's center, as
computed in the steering section of `update`. -/
def seekDelta (player : Vec) (e : Enemy) : Vec :=
  ⟨(player.x + PLAYER_SIZE / 2) - (e.pos.x + e.size / 2),
   (player.y + PLAYER_SIZE / 2) - (e.pos.y + e.size / 2)⟩

/-- The center-to-center distance `Math.hypot(dx, dy)` used by the steering
hysteresis. -/
def distToPlayer (player : Vec) (e : Enemy) : ℝ :=
  hypot (seekDelta player e).x (seekDelta player e).y

/-- The seek/wander steering section of `update` for one enemy: hysteresis
mode switch, then instantaneous retargeting at fixed speed while seeking
(with the divisor clamped by `Math.max(1, …)`). -/
def steerEnemy (player : Vec) (e : Enemy) : Enemy :=
  if e.willSeek then
    let dx := (seekDelta player e).x
    let dy := (seekDelta player e).y
    let dist := hypot dx dy
    let mode1 :=
      if e.mode = EnemyMode.wander ∧ dist < e.detectRadius then EnemyMode.seek
      else if e.mode = EnemyMode.seek ∧ dist > e.detectRadius * 1.25 then EnemyMode.wander
      else e.mode
    if mode1 = EnemyMode.seek then
      let len := max 1 (hypot dx dy)
      { e with mode := mode1, vel := ⟨dx / len * e.speed, dy / len * e.speed⟩ }
    else { e with mode := mode1 }
  else e

/-- The wander-jitter section of `update` for one enemy: with per-tick
probability 0.05, inject a random heading impulse and renormalize to the
assigned speed.  `e.mode === 'wander' && Math.random() < 0.05` short-circuits,
so no sample is consumed by a seeking enemy. -/
def jitterWander (dt : ℝ) (e : Enemy) (g : ℕ → ℝ) (k : ℕ) : Enemy × ℕ :=
  if e.mode = EnemyMode.wander then
    if g k < 0.05 then
      let jitter : ℝ := 0.3
      let vx := e.vel.x + rand (g (k + 1)) (-jitter) jitter * e.speed * dt
      let vy := e.vel.y + rand (g (k + 2)) (-jitter) jitter * e.speed * dt
      let vlen := max 1 (hypot vx vy)
      ({ e with vel := ⟨vx / vlen * e.speed, vy / vlen * e.speed⟩ }, k + 3)
    else (e, k + 1)
  else (e, k)

/-- The integration and wall-bounce section of `update` for one enemy:
`pos += vel * dt`, then each axis independently negates the velocity
component and clamps the position on boundary crossing. -/
def integrateEnemy (dt : ℝ) (e : Enemy) : Enemy :=
  let px := e.pos.x + e.vel.x * dt
  let py := e.pos.y + e.vel.y * dt
  let bx : Prop := px < 0 ∨ px > CANVAS_LOGICAL.x - e.size
  let by' : Prop := py < 0 ∨ py > CANVAS_LOGICAL.y - e.size
  { e with
    pos := ⟨if bx then clamp px 0 (CANVAS_LOGICAL.x - e.size) else px,
            if by' then clamp py 0 (CANVAS_LOGICAL.y - e.size) else py⟩,
    vel := ⟨if bx then -e.vel.x else e.vel.x, if by' then -e.vel.y else e.vel.y⟩ }

/-- The whole enemy-loop body of `update` for one enemy: steering, wander
jitter, integration and bounce. -/
def stepEnemy (player : Vec) (dt : ℝ) (e : Enemy) (g : ℕ → ℝ) (k : ℕ) : Enemy × ℕ :=
  let j := jitterWander dt (steerEnemy player e) g k
  (integrateEnemy dt j.1, j.2)

/-- `for (const e of next.enemies) { … }`: the movement loop over the enemy
list in iteration order, threading the sample cursor. -/
def stepEnemies (player : Vec) (dt : ℝ) (g : ℕ → ℝ) :
    List Enemy → ℕ → List Enemy × ℕ
  | [], k => ([], k)
  | e :: es, k =>
    let r := stepEnemy player dt e g k
    let rest := stepEnemies player dt g es r.2
    (r.1 :: rest.1, rest.2)

/-- The player's collision box `{ x: next.player.x, y: next.player.y,
w: PLAYER_SIZE, h: PLAYER_SIZE }`. -/
def playerBoxOf (player : Vec) : Box := ⟨player.x, player.y, PLAYER_SIZE, PLAYER_SIZE⟩

/-- An enemy's collision box `{ x: e.pos.x, y: e.pos.y, w: e.size, h: e.size }`. -/
def enemyBox (e : Enemy) : Box := ⟨e.pos.x, e.pos.y, e.size, e.size⟩

/-- The enemy-collision loop of `update`: walk the enemies in iteration
order; at the first overlap with the player's box, regenerate level
`Math.max(1, next.level - 1)` and return immediately (`some`); `none` when no
enemy overlaps. -/
def enemyCollisionLoop (playerBox : Box) (level : ℕ) (g : ℕ → ℝ) (k : ℕ) :
    List Enemy → Option (GameState × ℕ)
  | [] => none
  | e :: es =>
    if aabb playerBox (enemyBox e) then
      let back := max 1 (level - 1)
      let st := startLevel back g k
      some (GameState.playing st.1, st.2)
    else enemyCollisionLoop playerBox level g k es

/-- The collision-resolution section of `update` (everything after the
movement integration): enemy collisions first, in iteration order; only if
none fired, the diamond test, advancing the level or — past level 5 —
transitioning to victory without generating anything. -/
def resolveCollisions (next : Playing) (g : ℕ → ℝ) (k : ℕ) : GameState × ℕ :=
  let playerBox := playerBoxOf next.player
  match enemyCollisionLoop playerBox next.level g k next.enemies with
  | some r => r
  | none =>
    if diamondHit next.player next.diamond then
      if next.level + 1 > 5 then (GameState.victory, k)
      else
        let st := startLevel (next.level + 1) g k
        (GameState.playing st.1, st.2)
    else (GameState.playing next, k)

/-- `update(dt)` in the playing state: player movement, enemy movement,
then collision resolution. -/
def update (st : Playing) (keys : Input) (dt : ℝ) (g : ℕ → ℝ) (k : ℕ) : GameState × ℕ :=
  let player := movePlayer keys st.player dt
  let es := stepEnemies player dt g st.enemies k
  resolveCollisions { st with player := player, enemies := es.1 } g es.2

/-- Iterated ticks of the enemy-loop body, each tick with its own player
position, delta time and sample stream: the per-enemy dynamics over a whole
play sequence. -/
def runTicks : Enemy → List (Vec × ℝ × (ℕ → ℝ) × ℕ) → Enemy
  | e, [] => e
  | e, t :: ts => runTicks (stepEnemy t.1 t.2.1 e t.2.2.1 t.2.2.2).1 ts

/-- An enemy's spawn bounding box as the generator records it: its
size×size box centered on its spawn point. -/
def spawnBox (e : Enemy) : Box :=
  ⟨e.pos.x - e.size / 2, e.pos.y - e.size / 2, e.size, e.size⟩

/-- The bounding boxes the level generator places at spawn: the player's
box, the diamond's 24×24 box, and each enemy's size×size box centered on
its spawn point — exactly the `items` list `startLevel` accumulates. -/
def spawnBoxes (p : Playing) : List Box :=
  ⟨p.player.x, p.player.y, PLAYER_SIZE, PLAYER_SIZE⟩ ::
    ⟨p.diamond.x - 12, p.diamond.y - 12, 24, 24⟩ ::
    p.enemies.map spawnBox

/-- The placement call found an acceptable point within its retry budget
(the fallback path was not taken). -/
def placementSucceeded (pad : ℝ) (items : List Box) (g : ℕ → ℝ) (fuel k : ℕ) : Prop :=
  (placePosCore pad items g fuel k).1.isSome = true

/-- Every placement in the enemy-spawning loop stayed within its retry
budget; mirrors the item/cursor threading of `placeEnemies`. -/
def placeEnemiesOk (level : ℕ) (theme : Theme) (eligible : Bool) (g : ℕ → ℝ) :
    ℕ → List Box → ℕ → Prop
  | 0, _, _ => True
  | n + 1, items, k =>
    placementSucceeded 80 items g 1000 k ∧
      placeEnemiesOk level theme eligible g n
        (placeOneEnemy level theme eligible g items k).2.1
        (placeOneEnemy level theme eligible g items k).2.2

/-- No placement call of a `startLevel(level)` run exhausted its retry
budget (neither the diamond's nor any enemy's). -/
def noFallback (level : ℕ) (g : ℕ → ℝ) (k : ℕ) : Prop :=
  let theme := themeForLevel level
  let homingEnabledThisLevel : Bool := theme.name != "Wind"
  let eligible : Bool := homingEnabledThisLevel && homingKinds.contains theme.enemyKind
  let player : Vec := ⟨40, CANVAS_LOGICAL.y - 60⟩
  let items : List Box := [⟨player.x, player.y, PLAYER_SIZE, PLAYER_SIZE⟩]
  let dr := randomNonOverlappingPos 120 items g 1000 k
  let items2 := items ++ [⟨dr.1.x - 12, dr.1.y - 12, 24, 24⟩]
  placementSucceeded 120 items g 1000 k ∧
    placeEnemiesOk level theme eligible g (countForLevel level) items2 dr.2

/-! ## Concrete sample data used to evaluate the model on closed inputs -/

/-- A constant sample stream (every raw sample is 1/2). -/
def gHalf : ℕ → ℝ := fun _ => 1 / 2

/-- A sample stream whose raw values are 3/4 everywhere. -/
def gThreeQ : ℕ → ℝ := fun _ => 3 / 4

/-- An idle enemy sitting at (105, 105), overlapping a player at (100, 100). -/
def eHit : Enemy :=
  { pos := ⟨105, 105⟩, vel := ⟨0, 0⟩, size := 20, color := "#b45309",
    kind := EnemyKind.square, alpha := 1, speed := 140, detectRadius := 150,
    mode := EnemyMode.wander, willSeek := false }

/-- An idle enemy far away from a player at (100, 100). -/
def eMiss : Enemy :=
  { pos := ⟨500, 300⟩, vel := ⟨0, 0⟩, size := 20, color := "#b45309",
    kind := EnemyKind.square, alpha := 1, speed := 140, detectRadius := 150,
    mode := EnemyMode.wander, willSeek := false }

/-- Level-3 tick state in which the player overlaps both `eHit` and the goal. -/
def stBoth : Playing :=
  { level := 3, enemies := [eHit], player := ⟨100, 100⟩, diamond := ⟨110, 110⟩ }

/-- Level-4 tick state whose first enemy misses and second enemy hits. -/
def stOrder : Playing :=
  { level := 4, enemies := [eMiss, eHit], player := ⟨100, 100⟩, diamond := ⟨400, 300⟩ }

/-- Level-1 tick state with an enemy overlap (regression clamp case). -/
def stLevelOne : Playing :=
  { level := 1, enemies := [eHit], player := ⟨100, 100⟩, diamond := ⟨400, 300⟩ }

/-- Level-2 tick state with an enemy overlap and no goal overlap. -/
def stHitOnly : Playing :=
  { level := 2, enemies := [eHit], player := ⟨100, 100⟩, diamond := ⟨400, 300⟩ }

/-- Level-5 tick state with no enemies and the player on the goal. -/
def stGoalFive : Playing :=
  { level := 5, enemies := [], player := ⟨100, 100⟩, diamond := ⟨110, 110⟩ }

/-- Level-2 tick state with no enemies and the player on the goal. -/
def stGoalTwo : Playing :=
  { level := 2, enemies := [], player := ⟨100, 100⟩, diamond := ⟨110, 110⟩ }

/-- A seek-eligible wandering enemy centered at (110, 110) with detection
radius 150. -/
def eBand : Enemy :=
  { pos := ⟨100, 100⟩, vel := ⟨140, 0⟩, size := 20, color := "#38bdf8",
    kind := EnemyKind.shard, alpha := 1, speed := 140, detectRadius := 150,
    mode := EnemyMode.wander, willSeek := true }

/-- The same eligible enemy as `eBand` but currently in seek mode. -/
def eSeek : Enemy :=
  { pos := ⟨100, 100⟩, vel := ⟨140, 0⟩, size := 20, color := "#38bdf8",
    kind := EnemyKind.shard, alpha := 1, speed := 140, detectRadius := 150,
    mode := EnemyMode.seek, willSeek := true }

/-- Player position whose center is 160 away from `eBand`'s center: inside
the hysteresis dead band [150, 187.5]. -/
def pBand : Vec := ⟨260, 100⟩

/-- Player position whose center is 100 away from `eBand`'s center: inside
the detection radius. -/
def pNear : Vec := ⟨200, 100⟩

/-- Player position whose center is 200 away from `eBand`'s center: beyond
detectRadius × 1.25. -/
def pFar : Vec := ⟨300, 100⟩

/-- A seeking enemy at (400, 300) moving at its full speed 100. -/
def eClose : Enemy :=
  { pos := ⟨400, 300⟩, vel := ⟨100, 0⟩, size := 20, color := "#38bdf8",
    kind := EnemyKind.shard, alpha := 1, speed := 100, detectRadius := 150,
    mode := EnemyMode.seek, willSeek := true }

/-- Player position whose center is exactly 1/2 away from `eClose`'s
center (offset (0.3, 0.4)). -/
def pClose : Vec := ⟨400.3, 300.4⟩

/-- What steering turns `eClose` into against `pClose`: still seeking, but
with the velocity clamped to magnitude 50 by the `Math.max(1, …)` divisor. -/
def eClamped : Enemy :=
  { pos := ⟨400, 300⟩, vel := ⟨30, 40⟩, size := 20, color := "#38bdf8",
    kind := EnemyKind.shard, alpha := 1, speed := 100, detectRadius := 150,
    mode := EnemyMode.seek, willSeek := true }

/-- An ineligible wandering enemy moving at its full speed 5 (heading
(3, 4)/5). -/
def eNorm : Enemy :=
  { pos := ⟨200, 200⟩, vel := ⟨3, 4⟩, size := 20, color := "#b45309",
    kind := EnemyKind.square, alpha := 1, speed := 5, detectRadius := 150,
    mode := EnemyMode.wander, willSeek := false }

/-- A sample stream under which every placement of a level-1 run succeeds
on its first attempt (indices 2/3, 7/8 and 12/13 feed the three enemy
placements; everything else reads 1/2). -/
def gC8 : ℕ → ℝ := fun i =>
  if i = 2 ∨ i = 3 then 0
  else if i = 7 ∨ i = 8 then 9 / 10
  else if i = 12 ∨ i = 13 then 1 / 4
  else 1 / 2

/-! ## Basic facts about the collision loop and the generator -/

/-- Overlap of boxes is symmetric. -/
lemma aabb_comm {a b : Box} : aabb a b ↔ aabb b a := by
  unfold aabb
  constructor <;> rintro ⟨h1, h2, h3, h4⟩ <;> exact ⟨by linarith, by linarith, by linarith, by linarith⟩

/-- The regenerated state of `startLevel(level)` carries exactly that level. -/
lemma startLevel_level (level : ℕ) (g : ℕ → ℝ) (k : ℕ) :
    (startLevel level g k).1.level = level := rfl

/-- If no enemy's box overlaps the player's box, the collision loop falls
through. -/
lemma enemyCollisionLoop_eq_none {pb : Box} {level : ℕ} {g : ℕ → ℝ} {k : ℕ}
    {es : List Enemy} (h : ∀ e ∈ es, ¬ aabb pb (enemyBox e)) :
    enemyCollisionLoop pb level g k es = none := by
  induction es with
  | nil => rfl
  | cons e es ih =>
    rw [enemyCollisionLoop, if_neg (h e (List.mem_cons_self e es))]
    exact ih fun e' he' => h e' (List.mem_cons_of_mem e he')

/-- If some enemy's box overlaps the player's box, the collision loop
regenerates level `max 1 (level - 1)`. -/
lemma enemyCollisionLoop_eq_some {pb : Box} {level : ℕ} {g : ℕ → ℝ} {k : ℕ}
    {es : List Enemy} (h : ∃ e ∈ es, aabb pb (enemyBox e)) :
    enemyCollisionLoop pb level g k es =
      some (GameState.playing (startLevel (max 1 (level - 1)) g k).1,
        (startLevel (max 1 (level - 1)) g k).2) := by
  induction es with
  | nil => exact absurd h (by simp)
  | cons e es ih =>
    by_cases he : aabb pb (enemyBox e)
    · rw [enemyCollisionLoop, if_pos he]
    · rw [enemyCollisionLoop, if_neg he]
      rcases h with ⟨e', he', hhit⟩
      rcases List.mem_cons.1 he' with rfl | hmem
      · exact absurd hhit he
      · exact ih ⟨e', hmem, hhit⟩

/-! ## C1 — enemy collision takes priority over the goal -/

/-- C1: in a playing-state tick whose collision phase sees the player's box
overlapping both some enemy's box and the goal's box, the enemy collision
wins: the tick regenerates level `max 1 (level - 1)` and no level advance
(and no victory) occurs. -/
theorem enemy_collision_takes_priority (next : Playing) (g : ℕ → ℝ) (k : ℕ)
    (hL : 1 ≤ next.level)
    (henemy : ∃ e ∈ next.enemies, aabb (playerBoxOf next.player) (enemyBox e))
    (hgoal : diamondHit next.player next.diamond) :
    resolveCollisions next g k =
      (GameState.playing (startLevel (max 1 (next.level - 1)) g k).1,
        (startLevel (max 1 (next.level - 1)) g k).2) ∧
      (startLevel (max 1 (next.level - 1)) g k).1.level ≤ next.level := by
  constructor
  · simp only [resolveCollisions]
    rw [enemyCollisionLoop_eq_some henemy]
  · rw [startLevel_level]
    omega

/-! ## C2 — first overlap in iteration order ends resolution -/

/-- C2 (amended): in the collision phase, the player's box is tested against
every enemy's box in iteration order and the first overlap found ends
resolution for the tick — the remaining enemies and the goal test are
skipped — regenerating level `max 1 (level - 1)` via the level generator.
That regenerated level is strictly lower than the current one whenever the
current level is at least 2 (at level 1 the same level is regenerated). -/
theorem first_enemy_overlap_ends_resolution (next : Playing) (g : ℕ → ℝ) (k : ℕ)
    (pre post : List Enemy) (e : Enemy)
    (hsplit : next.enemies = pre ++ e :: post)
    (hpre : ∀ e' ∈ pre, ¬ aabb (playerBoxOf next.player) (enemyBox e'))
    (hhit : aabb (playerBoxOf next.player) (enemyBox e)) :
    resolveCollisions next g k =
      (GameState.playing (startLevel (max 1 (next.level - 1)) g k).1,
        (startLevel (max 1 (next.level - 1)) g k).2) ∧
      (2 ≤ next.level → max 1 (next.level - 1) < next.level) := by
  refine ⟨?_, fun h2 => by omega⟩
  simp only [resolveCollisions]
  rw [enemyCollisionLoop_eq_some ⟨e, by rw [hsplit]; simp, hhit⟩]

/-! ## C3 — regression is clamped at level 1 -/

/-- C3: an enemy collision at level L regenerates level `max 1 (L - 1)`; in
particular the regenerated level is never below 1, and a collision at
level 1 regenerates level 1 itself. -/
theorem enemy_collision_regenerates_clamped (next : Playing) (g : ℕ → ℝ) (k : ℕ)
    (henemy : ∃ e ∈ next.enemies, aabb (playerBoxOf next.player) (enemyBox e)) :
    ∃ p : Playing, (resolveCollisions next g k).1 = GameState.playing p ∧
      p.level = max 1 (next.level - 1) ∧ 1 ≤ p.level ∧
      (next.level = 1 → p.level = 1) := by
  refine ⟨(startLevel (max 1 (next.level - 1)) g k).1, ?_, ?_, ?_, ?_⟩
  · simp only [resolveCollisions]
    rw [enemyCollisionLoop_eq_some henemy]
  · exact startLevel_level _ g k
  · rw [startLevel_level]; omega
  · intro h1; rw [startLevel_level]; omega

/-! ## C4 — goal collision: advance, or victory on the final level -/

/-- C4: in a collision phase where no enemy overlap fired and the player's
box overlaps the goal's box, level 5 transitions to victory with no further
level generated (the sample cursor is untouched), while levels 1 through 4
regenerate level L+1 within the same tick. -/
theorem goal_collision_advances_or_wins (next : Playing) (g : ℕ → ℝ) (k : ℕ)
    (hnone : ∀ e ∈ next.enemies, ¬ aabb (playerBoxOf next.player) (enemyBox e))
    (hgoal : diamondHit next.player next.diamond) :
    (next.level = 5 → resolveCollisions next g k = (GameState.victory, k)) ∧
      (1 ≤ next.level → next.level ≤ 4 →
        resolveCollisions next g k =
          (GameState.playing (startLevel (next.level + 1) g k).1,
            (startLevel (next.level + 1) g k).2)) := by
  constructor
  · intro h5
    simp only [resolveCollisions]
    rw [enemyCollisionLoop_eq_none hnone]
    simp only [if_pos hgoal, h5]
    norm_num
  · intro h1 h4
    simp only [resolveCollisions]
    rw [enemyCollisionLoop_eq_none hnone]
    simp only [if_pos hgoal]
    rw [if_neg (by omega)]

/-- Witness for C1: a concrete level-3 tick state overlapping both an enemy
and the goal resolves to a regeneration of level 2 — not an advance. -/
theorem enemy_collision_takes_priority_witness :
    (∃ e ∈ stBoth.enemies, aabb (playerBoxOf stBoth.player) (enemyBox e)) ∧
      diamondHit stBoth.player stBoth.diamond ∧
      resolveCollisions stBoth gHalf 0 =
        (GameState.playing (startLevel 2 gHalf 0).1, (startLevel 2 gHalf 0).2) := by
  have henemy : ∃ e ∈ stBoth.enemies, aabb (playerBoxOf stBoth.player) (enemyBox e) := by
    refine ⟨eHit, by simp [stBoth], ?_⟩
    norm_num [aabb, playerBoxOf, enemyBox, stBoth, eHit, PLAYER_SIZE]
  have hgoal : diamondHit stBoth.player stBoth.diamond := by
    norm_num [diamondHit, aabb, stBoth, PLAYER_SIZE, DIAMOND_SIZE]
  exact ⟨henemy, hgoal,
    (enemy_collision_takes_priority stBoth gHalf 0 (by norm_num [stBoth]) henemy hgoal).1⟩

/-- Witness for C2: with a missing first enemy and a hitting second enemy at
level 4, resolution regenerates level 3, strictly lower than 4. -/
theorem first_enemy_overlap_ends_resolution_witness :
    (∀ e' ∈ [eMiss], ¬ aabb (playerBoxOf stOrder.player) (enemyBox e')) ∧
      aabb (playerBoxOf stOrder.player) (enemyBox eHit) ∧
      resolveCollisions stOrder gHalf 0 =
        (GameState.playing (startLevel 3 gHalf 0).1, (startLevel 3 gHalf 0).2) ∧
      max 1 (stOrder.level - 1) < stOrder.level := by
  have hpre : ∀ e' ∈ [eMiss], ¬ aabb (playerBoxOf stOrder.player) (enemyBox e') := by
    intro e' he'
    simp only [List.mem_singleton] at he'
    subst he'
    norm_num [aabb, playerBoxOf, enemyBox, stOrder, eMiss, PLAYER_SIZE]
  have hhit : aabb (playerBoxOf stOrder.player) (enemyBox eHit) := by
    norm_num [aabb, playerBoxOf, enemyBox, stOrder, eHit, PLAYER_SIZE]
  have h := first_enemy_overlap_ends_resolution stOrder gHalf 0 [eMiss] [] eHit rfl hpre hhit
  exact ⟨hpre, hhit, h.1, h.2 (by norm_num [stOrder])⟩

/-- Counterexample for C2 as literally stated: at level 1 an enemy collision
regenerates level 1 itself, which is not a lower level than the current
one. -/
theorem level_one_collision_does_not_regress_lower :
    (∃ e ∈ stLevelOne.enemies, aabb (playerBoxOf stLevelOne.player) (enemyBox e)) ∧
      (resolveCollisions stLevelOne gHalf 0).1 =
        GameState.playing (startLevel 1 gHalf 0).1 ∧
      (startLevel 1 gHalf 0).1.level = stLevelOne.level := by
  have henemy : ∃ e ∈ stLevelOne.enemies, aabb (playerBoxOf stLevelOne.player) (enemyBox e) := by
    refine ⟨eHit, by simp [stLevelOne], ?_⟩
    norm_num [aabb, playerBoxOf, enemyBox, stLevelOne, eHit, PLAYER_SIZE]
  refine ⟨henemy, ?_, rfl⟩
  simp only [resolveCollisions]
  rw [enemyCollisionLoop_eq_some henemy]
  rfl

/-- Witness for C3: a concrete enemy collision at level 2 regenerates level
1 = max 1 (2 - 1). -/
theorem enemy_collision_regenerates_clamped_witness :
    (∃ e ∈ stHitOnly.enemies, aabb (playerBoxOf stHitOnly.player) (enemyBox e)) ∧
      ∃ p : Playing, (resolveCollisions stHitOnly gHalf 0).1 = GameState.playing p ∧
        p.level = max 1 (stHitOnly.level - 1) ∧ 1 ≤ p.level ∧
        (stHitOnly.level = 1 → p.level = 1) := by
  have henemy : ∃ e ∈ stHitOnly.enemies, aabb (playerBoxOf stHitOnly.player) (enemyBox e) := by
    refine ⟨eHit, by simp [stHitOnly], ?_⟩
    norm_num [aabb, playerBoxOf, enemyBox, stHitOnly, eHit, PLAYER_SIZE]
  exact ⟨henemy, enemy_collision_regenerates_clamped stHitOnly gHalf 0 henemy⟩

/-- Witness for C4: with no enemies and the player on the goal, level 5
resolves to victory with the sample cursor untouched, and level 2 resolves
to a regeneration of level 3. -/
theorem goal_collision_advances_or_wins_witness :
    diamondHit stGoalFive.player stGoalFive.diamond ∧
      resolveCollisions stGoalFive gHalf 0 = (GameState.victory, 0) ∧
      resolveCollisions stGoalTwo gHalf 0 =
        (GameState.playing (startLevel 3 gHalf 0).1, (startLevel 3 gHalf 0).2) := by
  have hgoal5 : diamondHit stGoalFive.player stGoalFive.diamond := by
    norm_num [diamondHit, aabb, stGoalFive, PLAYER_SIZE, DIAMOND_SIZE]
  have hgoal2 : diamondHit stGoalTwo.player stGoalTwo.diamond := by
    norm_num [diamondHit, aabb, stGoalTwo, PLAYER_SIZE, DIAMOND_SIZE]
  refine ⟨hgoal5, ?_, ?_⟩
  · exact (goal_collision_advances_or_wins stGoalFive gHalf 0 (by simp [stGoalFive]) hgoal5).1 rfl
  · exact (goal_collision_advances_or_wins stGoalTwo gHalf 0 (by simp [stGoalTwo]) hgoal2).2
      (by norm_num [stGoalTwo]) (by norm_num [stGoalTwo])

/-! ## Facts about `hypot` and the per-enemy tick -/

lemma hypot_nonneg (x y : ℝ) : 0 ≤ hypot x y := Real.sqrt_nonneg _

lemma hypot_sq (x y : ℝ) : hypot x y ^ 2 = x ^ 2 + y ^ 2 :=
  Real.sq_sqrt (by positivity)

/-- Evaluate `hypot` at a point whose norm is a known `c`. -/
lemma hypot_eq_of {x y c : ℝ} (hc : 0 ≤ c) (h : x ^ 2 + y ^ 2 = c ^ 2) :
    hypot x y = c := by
  unfold hypot
  rw [h, Real.sqrt_sq hc]

lemma hypot_mul_nonneg (x y c : ℝ) (hc : 0 ≤ c) :
    hypot (x * c) (y * c) = hypot x y * c := by
  unfold hypot
  rw [show (x * c) ^ 2 + (y * c) ^ 2 = (x ^ 2 + y ^ 2) * c ^ 2 by ring,
    Real.sqrt_mul (by positivity), Real.sqrt_sq hc]

/-- The wander jitter never changes the steering mode. -/
lemma jitterWander_mode (dt : ℝ) (e : Enemy) (g : ℕ → ℝ) (k : ℕ) :
    (jitterWander dt e g k).1.mode = e.mode := by
  unfold jitterWander
  split_ifs <;> rfl

/-- The wander jitter never changes the eligibility flag. -/
lemma jitterWander_willSeek (dt : ℝ) (e : Enemy) (g : ℕ → ℝ) (k : ℕ) :
    (jitterWander dt e g k).1.willSeek = e.willSeek := by
  unfold jitterWander
  split_ifs <;> rfl

/-- The jitter never changes the assigned speed. -/
lemma jitterWander_speed (dt : ℝ) (e : Enemy) (g : ℕ → ℝ) (k : ℕ) :
    (jitterWander dt e g k).1.speed = e.speed := by
  unfold jitterWander
  split_ifs <;> rfl

lemma integrateEnemy_mode (dt : ℝ) (e : Enemy) : (integrateEnemy dt e).mode = e.mode := rfl

lemma integrateEnemy_willSeek (dt : ℝ) (e : Enemy) :
    (integrateEnemy dt e).willSeek = e.willSeek := rfl

lemma integrateEnemy_speed (dt : ℝ) (e : Enemy) : (integrateEnemy dt e).speed = e.speed := rfl

/-- Integration and wall bounce preserve the velocity magnitude (each axis
at most flips the sign of its component). -/
lemma integrateEnemy_vel_norm (dt : ℝ) (e : Enemy) :
    hypot (integrateEnemy dt e).vel.x (integrateEnemy dt e).vel.y =
      hypot e.vel.x e.vel.y := by
  simp only [integrateEnemy]
  split_ifs <;> simp [hypot, neg_sq]

/-- A seek-ineligible enemy passes through the steering section unchanged. -/
lemma steerEnemy_of_not_willSeek (player : Vec) {e : Enemy}
    (h : e.willSeek = false) : steerEnemy player e = e := by
  unfold steerEnemy
  rw [h]
  rfl

/-- Steering never changes the eligibility flag. -/
lemma steerEnemy_willSeek (player : Vec) (e : Enemy) :
    (steerEnemy player e).willSeek = e.willSeek := by
  by_cases hw : e.willSeek = true
  · simp only [steerEnemy, hw, eq_self_iff_true, if_true]
    split_ifs <;> rfl
  · rw [steerEnemy_of_not_willSeek player (by simpa using hw)]

/-- Steering never changes the assigned speed. -/
lemma steerEnemy_speed (player : Vec) (e : Enemy) :
    (steerEnemy player e).speed = e.speed := by
  by_cases hw : e.willSeek = true
  · simp only [steerEnemy, hw, eq_self_iff_true, if_true]
    split_ifs <;> rfl
  · rw [steerEnemy_of_not_willSeek player (by simpa using hw)]

/-- The mode after steering, as a function of the hysteresis thresholds. -/
lemma steerEnemy_mode (player : Vec) (e : Enemy) :
    (steerEnemy player e).mode =
      if e.willSeek then
        (if e.mode = EnemyMode.wander ∧ distToPlayer player e < e.detectRadius then
          EnemyMode.seek
         else if e.mode = EnemyMode.seek ∧ distToPlayer player e > e.detectRadius * 1.25 then
          EnemyMode.wander
         else e.mode)
      else e.mode := by
  by_cases hw : e.willSeek = true
  · simp only [steerEnemy, distToPlayer, hw, eq_self_iff_true, if_true]
    split_ifs <;> simp_all
  · have hw2 : e.willSeek = false := by simpa using hw
    rw [steerEnemy_of_not_willSeek player hw2, hw2]
    simp

/-- The mode after a whole enemy-loop tick is the mode chosen by steering. -/
lemma stepEnemy_mode (player : Vec) (dt : ℝ) (e : Enemy) (g : ℕ → ℝ) (k : ℕ) :
    (stepEnemy player dt e g k).1.mode = (steerEnemy player e).mode := by
  unfold stepEnemy
  rw [integrateEnemy_mode, jitterWander_mode]

/-- The eligibility flag survives a whole enemy-loop tick unchanged. -/
lemma stepEnemy_willSeek (player : Vec) (dt : ℝ) (e : Enemy) (g : ℕ → ℝ) (k : ℕ) :
    (stepEnemy player dt e g k).1.willSeek = e.willSeek := by
  unfold stepEnemy
  rw [integrateEnemy_willSeek, jitterWander_willSeek, steerEnemy_willSeek]

/-- The assigned speed survives a whole enemy-loop tick unchanged. -/
lemma stepEnemy_speed (player : Vec) (dt : ℝ) (e : Enemy) (g : ℕ → ℝ) (k : ℕ) :
    (stepEnemy player dt e g k).1.speed = e.speed := by
  unfold stepEnemy
  rw [integrateEnemy_speed, jitterWander_speed, steerEnemy_speed]

/-! ## C5 — seek/wander hysteresis with dead band -/

/-- C5: on any tick, a seek-eligible enemy switches from wander to seek when
its center-to-player-center distance is below its detection radius, switches
from seek back to wander when that distance exceeds detectRadius × 1.25, and
keeps its mode unchanged anywhere in the dead band between the two
thresholds. -/
theorem seek_hysteresis_dead_band (player : Vec) (dt : ℝ) (e : Enemy)
    (g : ℕ → ℝ) (k : ℕ) (hws : e.willSeek = true) :
    (e.mode = EnemyMode.wander → distToPlayer player e < e.detectRadius →
      (stepEnemy player dt e g k).1.mode = EnemyMode.seek) ∧
    (e.mode = EnemyMode.seek → distToPlayer player e > e.detectRadius * 1.25 →
      (stepEnemy player dt e g k).1.mode = EnemyMode.wander) ∧
    (e.detectRadius ≤ distToPlayer player e →
      distToPlayer player e ≤ e.detectRadius * 1.25 →
      (stepEnemy player dt e g k).1.mode = e.mode) := by
  refine ⟨fun h1 h2 => ?_, fun h1 h2 => ?_, fun h1 h2 => ?_⟩ <;>
    rw [stepEnemy_mode, steerEnemy_mode] <;>
    simp only [hws, eq_self_iff_true, if_true]
  · rw [if_pos ⟨h1, h2⟩]
  · rw [if_neg (by rw [h1]; rintro ⟨h, -⟩; cases h), if_pos ⟨h1, h2⟩]
  · rw [if_neg (by rintro ⟨-, h⟩; linarith), if_neg (by rintro ⟨-, h⟩; linarith)]

/-- Witness for C5: a concrete eligible enemy at center distance 100 enters
seek, at distance 200 leaves seek, and at distance 160 — inside the dead
band [150, 187.5] — keeps its mode. -/
theorem seek_hysteresis_dead_band_witness :
    eBand.willSeek = true ∧
      (150 ≤ distToPlayer pBand eBand ∧ distToPlayer pBand eBand ≤ 187.5) ∧
      (stepEnemy pBand (1 / 60) eBand gHalf 0).1.mode = EnemyMode.wander ∧
      (stepEnemy pNear (1 / 60) eBand gHalf 0).1.mode = EnemyMode.seek ∧
      (stepEnemy pFar (1 / 60) eSeek gHalf 0).1.mode = EnemyMode.wander := by
  have hdBand : distToPlayer pBand eBand = 160 := by
    unfold distToPlayer seekDelta
    norm_num [pBand, eBand, PLAYER_SIZE]
    exact hypot_eq_of (by norm_num) (by norm_num)
  have hdNear : distToPlayer pNear eBand = 100 := by
    unfold distToPlayer seekDelta
    norm_num [pNear, eBand, PLAYER_SIZE]
    exact hypot_eq_of (by norm_num) (by norm_num)
  have hdFar : distToPlayer pFar eSeek = 200 := by
    unfold distToPlayer seekDelta
    norm_num [pFar, eSeek, PLAYER_SIZE]
    exact hypot_eq_of (by norm_num) (by norm_num)
  refine ⟨rfl, by rw [hdBand]; norm_num, ?_, ?_, ?_⟩
  · have h := (seek_hysteresis_dead_band pBand (1 / 60) eBand gHalf 0 rfl).2.2
    rw [hdBand] at h
    exact h (by norm_num [eBand]) (by norm_num [eBand])
  · have h := (seek_hysteresis_dead_band pNear (1 / 60) eBand gHalf 0 rfl).1
    rw [hdNear] at h
    exact h rfl (by norm_num [eBand])
  · have h := (seek_hysteresis_dead_band pFar (1 / 60) eSeek gHalf 0 rfl).2.1
    rw [hdFar] at h
    exact h rfl (by norm_num [eSeek])

/-! ## C7 — ineligible enemies never seek -/

/-- C7: an enemy whose one-time eligibility flag is false at spawn keeps
mode wander after any sequence of ticks, and the flag itself is never
recomputed: it stays false forever. -/
theorem ineligible_never_seeks (e : Enemy) (hflag : e.willSeek = false)
    (hmode : e.mode = EnemyMode.wander) :
    ∀ ts : List (Vec × ℝ × (ℕ → ℝ) × ℕ),
      (runTicks e ts).mode = EnemyMode.wander ∧ (runTicks e ts).willSeek = false := by
  intro ts
  induction ts generalizing e with
  | nil => exact ⟨hmode, hflag⟩
  | cons t ts ih =>
    refine ih _ ?_ ?_
    · rw [stepEnemy_willSeek]
      exact hflag
    · rw [stepEnemy_mode, steerEnemy_of_not_willSeek _ hflag]
      exact hmode

/-- Witness for C7: the concrete ineligible enemy `eHit` stays in wander
mode with its flag false through a concrete two-tick run. -/
theorem ineligible_never_seeks_witness :
    eHit.willSeek = false ∧ eHit.mode = EnemyMode.wander ∧
      (runTicks eHit [(⟨0, 0⟩, 1 / 60, gHalf, 0), (⟨700, 400⟩, 1 / 30, gThreeQ, 5)]).mode =
        EnemyMode.wander ∧
      (runTicks eHit [(⟨0, 0⟩, 1 / 60, gHalf, 0), (⟨700, 400⟩, 1 / 30, gThreeQ, 5)]).willSeek =
        false := by
  have h := ineligible_never_seeks eHit rfl rfl
    [(⟨0, 0⟩, 1 / 60, gHalf, 0), (⟨700, 400⟩, 1 / 30, gThreeQ, 5)]
  exact ⟨rfl, rfl, h.1, h.2⟩

/-! ## C10 — generation is deterministic in the sample stream -/

/-- C10: two runs of the level generator for the same level number over
identical sample streams (the same seed) produce identical layouts —
positions, velocities, speeds, eligibility flags and the final cursor all
agree.  Generation reads nothing but its arguments and the stream. -/
theorem generation_deterministic (level : ℕ) (g1 g2 : ℕ → ℝ) (k : ℕ)
    (h : ∀ i, g1 i = g2 i) :
    startLevel level g1 k = startLevel level g2 k := by
  have hg : g1 = g2 := funext h
  rw [hg]

/-- Witness for C10: the constant stream agrees with itself, and the two
level-1 runs coincide. -/
theorem generation_deterministic_witness :
    (∀ i, gHalf i = gHalf i) ∧ startLevel 1 gHalf 0 = startLevel 1 gHalf 0 :=
  ⟨fun _ => rfl, generation_deterministic 1 gHalf gHalf 0 fun _ => rfl⟩

/-! ## C9 — generation always succeeds -/

/-- The enemy loop always produces exactly the requested number of enemies. -/
lemma placeEnemies_length (level : ℕ) (theme : Theme) (eligible : Bool) (g : ℕ → ℝ) :
    ∀ (n : ℕ) (items : List Box) (k : ℕ),
      (placeEnemies level theme eligible g n items k).1.length = n := by
  intro n
  induction n with
  | zero => intro items k; rfl
  | succ n ih =>
    intro items k
    simp only [placeEnemies, List.length_cons, ih]

/-- `startLevel` always returns a full enemy roster of the table-driven,
clamped size. -/
lemma startLevel_enemies_length (level : ℕ) (g : ℕ → ℝ) (k : ℕ) :
    ((startLevel level g k).1.enemies).length = countForLevel level := by
  simp only [startLevel]
  exact placeEnemies_length _ _ _ _ _ _ _

/-- An accepted placement sample lies inside the arena inset by the padding
margin on both axes. -/
lemma placePosCore_range {pad : ℝ} {existing : List Box} {g : ℕ → ℝ}
    (hg : ∀ i, 0 ≤ g i ∧ g i < 1)
    (hx : 2 * pad < CANVAS_LOGICAL.x) (hy : 2 * pad < CANVAS_LOGICAL.y) :
    ∀ (fuel k : ℕ) (v : Vec), (placePosCore pad existing g fuel k).1 = some v →
      pad ≤ v.x ∧ v.x < CANVAS_LOGICAL.x - pad ∧
      pad ≤ v.y ∧ v.y < CANVAS_LOGICAL.y - pad := by
  intro fuel
  induction fuel with
  | zero => intro k v h; exact absurd h (by simp [placePosCore])
  | succ fuel ih =>
    intro k v h
    simp only [placePosCore] at h
    by_cases hover :
        ∃ e ∈ existing, aabb e
          ⟨rand (g k) pad (CANVAS_LOGICAL.x - pad) - pad / 2,
           rand (g (k + 1)) pad (CANVAS_LOGICAL.y - pad) - pad / 2, pad, pad⟩
    · rw [if_pos hover] at h
      exact ih (k + 2) v h
    · rw [if_neg hover] at h
      simp only [Prod.fst] at h
      have hv : v = ⟨rand (g k) pad (CANVAS_LOGICAL.x - pad),
          rand (g (k + 1)) pad (CANVAS_LOGICAL.y - pad)⟩ := by
        cases h; rfl
      subst hv
      have h0 := hg k
      have h1 := hg (k + 1)
      unfold rand
      dsimp only
      refine ⟨?_, ?_, ?_, ?_⟩
      · nlinarith [h0.1, h0.2]
      · nlinarith [h0.1, h0.2]
      · nlinarith [h1.1, h1.2]
      · nlinarith [h1.1, h1.2]

/-- C9: level generation is total and never fails.  For every level the
returned layout has exactly `LEVEL_ENEMIES[clamp(level-1, 0, 4)]` enemies
(the table entry clamped to its last index); every placement call either
returns a point sampled inside the arena inset by its padding margin, or —
exactly when all its retry attempts were rejected — deterministically
returns the padding coordinate `(pad, pad)`. -/
theorem generation_never_fails (level : ℕ) (pad : ℝ) (existing : List Box)
    (g : ℕ → ℝ) (fuel k k2 : ℕ)
    (hg : ∀ i, 0 ≤ g i ∧ g i < 1)
    (hx : 2 * pad < CANVAS_LOGICAL.x) (hy : 2 * pad < CANVAS_LOGICAL.y) :
    ((startLevel level g k2).1.enemies).length =
      LEVEL_ENEMIES.getD (min (level - 1) (LEVEL_ENEMIES.length - 1)) 0 ∧
    ((pad ≤ (randomNonOverlappingPos pad existing g fuel k).1.x ∧
        (randomNonOverlappingPos pad existing g fuel k).1.x < CANVAS_LOGICAL.x - pad ∧
        pad ≤ (randomNonOverlappingPos pad existing g fuel k).1.y ∧
        (randomNonOverlappingPos pad existing g fuel k).1.y < CANVAS_LOGICAL.y - pad) ∨
      (randomNonOverlappingPos pad existing g fuel k).1 = ⟨pad, pad⟩) ∧
    ((placePosCore pad existing g fuel k).1 = none →
      (randomNonOverlappingPos pad existing g fuel k).1 = ⟨pad, pad⟩) := by
  refine ⟨startLevel_enemies_length level g k2, ?_, ?_⟩
  · cases hcore : (placePosCore pad existing g fuel k).1 with
    | none =>
      right
      simp only [randomNonOverlappingPos, hcore, Option.getD_none]
    | some v =>
      left
      have hr := placePosCore_range hg hx hy fuel k v hcore
      simpa only [randomNonOverlappingPos, hcore, Option.getD_some] using hr
  · intro hnone
    simp only [randomNonOverlappingPos, hnone, Option.getD_none]

/-- Witness for C9: concrete streams and pads satisfy the hypotheses; level
7 reads the clamped last table entry (12 enemies). -/
theorem generation_never_fails_witness :
    (∀ i, 0 ≤ gHalf i ∧ gHalf i < 1) ∧
      2 * (80 : ℝ) < CANVAS_LOGICAL.x ∧ 2 * (80 : ℝ) < CANVAS_LOGICAL.y ∧
      (((startLevel 7 gHalf 0).1.enemies).length =
        LEVEL_ENEMIES.getD (min (7 - 1) (LEVEL_ENEMIES.length - 1)) 0 ∧
      ((80 ≤ (randomNonOverlappingPos 80 [] gHalf 1000 0).1.x ∧
          (randomNonOverlappingPos 80 [] gHalf 1000 0).1.x < CANVAS_LOGICAL.x - 80 ∧
          80 ≤ (randomNonOverlappingPos 80 [] gHalf 1000 0).1.y ∧
          (randomNonOverlappingPos 80 [] gHalf 1000 0).1.y < CANVAS_LOGICAL.y - 80) ∨
        (randomNonOverlappingPos 80 [] gHalf 1000 0).1 = ⟨80, 80⟩) ∧
      ((placePosCore 80 [] gHalf 1000 0).1 = none →
        (randomNonOverlappingPos 80 [] gHalf 1000 0).1 = ⟨80, 80⟩)) := by
  have hg : ∀ i, 0 ≤ gHalf i ∧ gHalf i < 1 := fun i => by norm_num [gHalf]
  have hx : 2 * (80 : ℝ) < CANVAS_LOGICAL.x := by norm_num [CANVAS_LOGICAL]
  have hy : 2 * (80 : ℝ) < CANVAS_LOGICAL.y := by norm_num [CANVAS_LOGICAL]
  exact ⟨hg, hx, hy, generation_never_fails 7 80 [] gHalf 1000 0 0 hg hx hy⟩

/-! ## C6 — velocity magnitude versus assigned speed -/

/-- Normalizing by a positive divisor and rescaling gives the rescaled
norm. -/
lemma hypot_div_mul (x y L s : ℝ) (hL : 0 < L) (hs : 0 ≤ s) :
    hypot (x / L * s) (y / L * s) = hypot x y / L * s := by
  rw [show x / L * s = x * (s / L) by ring, show y / L * s = y * (s / L) by ring,
    hypot_mul_nonneg x y (s / L) (by positivity)]
  ring

/-- A seeking enemy skips the wander-jitter section entirely. -/
lemma jitterWander_of_seek (dt : ℝ) (e : Enemy) (g : ℕ → ℝ) (k : ℕ)
    (h : e.mode = EnemyMode.seek) : jitterWander dt e g k = (e, k) := by
  unfold jitterWander
  rw [if_neg (by rw [h]; exact fun hc => by cases hc)]

/-- Theme speed bonuses are nonnegative. -/
lemma themeForLevel_speedBonus_nonneg (level : ℕ) :
    0 ≤ (themeForLevel level).speedBonus := by
  simp only [themeForLevel]
  split_ifs <;> norm_num

/-- Steering preserves the velocity magnitude of an enemy moving at its
assigned speed, provided a seeking outcome only happens at center distance
at least 1 (otherwise the `Math.max(1, …)` clamp shrinks the velocity). -/
lemma steerEnemy_vel_norm (player : Vec) (e : Enemy)
    (hv : hypot e.vel.x e.vel.y = e.speed) (hs : 0 ≤ e.speed)
    (hfar : (steerEnemy player e).mode = EnemyMode.seek → 1 ≤ distToPlayer player e) :
    hypot (steerEnemy player e).vel.x (steerEnemy player e).vel.y = e.speed := by
  by_cases hw : e.willSeek = true
  · have hmode := steerEnemy_mode player e
    rw [hw] at hmode
    simp only [eq_self_iff_true, if_true, distToPlayer] at hmode
    have hseek : 1 ≤ hypot (seekDelta player e).x (seekDelta player e).y →
        hypot ((seekDelta player e).x /
            max 1 (hypot (seekDelta player e).x (seekDelta player e).y) * e.speed)
          ((seekDelta player e).y /
            max 1 (hypot (seekDelta player e).x (seekDelta player e).y) * e.speed) =
          e.speed := by
      intro hd
      rw [max_eq_right hd, hypot_div_mul _ _ _ _ (by linarith) hs,
        div_self (ne_of_gt (by linarith)), one_mul]
    simp only [steerEnemy, hw, eq_self_iff_true, if_true]
    by_cases h1 : e.mode = EnemyMode.wander ∧
        hypot (seekDelta player e).x (seekDelta player e).y < e.detectRadius
    · rw [if_pos h1]
      simp only [eq_self_iff_true, if_true]
      exact hseek (hfar (by rw [hmode, if_pos h1]))
    · rw [if_neg h1]
      by_cases h2 : e.mode = EnemyMode.seek ∧
          hypot (seekDelta player e).x (seekDelta player e).y > e.detectRadius * 1.25
      · rw [if_pos h2, if_neg (by exact fun hc => by cases hc)]
        exact hv
      · rw [if_neg h2]
        by_cases h3 : e.mode = EnemyMode.seek
        · rw [if_pos h3]
          exact hseek (hfar (by rw [hmode, if_neg h1, if_neg h2]; exact h3))
        · rw [if_neg h3]
          exact hv
  · rw [steerEnemy_of_not_willSeek player (by simpa using hw)]
    exact hv

/-- The wander jitter preserves the velocity magnitude of an enemy moving
at its assigned speed: the jittered velocity cannot drop below norm 1 (for
speeds ≥ 2 and dt ≤ 0.033), so the renormalization divisor is exact. -/
lemma jitterWander_vel_norm (dt : ℝ) (e : Enemy) (g : ℕ → ℝ) (k : ℕ)
    (hv : hypot e.vel.x e.vel.y = e.speed) (hs : 2 ≤ e.speed)
    (hdt0 : 0 ≤ dt) (hdt : dt ≤ 0.033) (hg : ∀ i, 0 ≤ g i ∧ g i < 1) :
    hypot (jitterWander dt e g k).1.vel.x (jitterWander dt e g k).1.vel.y = e.speed := by
  have hs0 : (0 : ℝ) ≤ e.speed := by linarith
  simp only [jitterWander]
  split_ifs with hm hr
  · have hx2 : e.vel.x ^ 2 + e.vel.y ^ 2 = e.speed ^ 2 := by
      rw [← hv]; exact (hypot_sq _ _).symm
    have hb1 := hg (k + 1)
    have hb2 := hg (k + 2)
    have hbound : ∀ i : ℕ, 0 ≤ g i → g i < 1 →
        rand (g i) (-0.3) 0.3 * e.speed * dt ≤ 0.01 * e.speed ∧
        -(0.01 * e.speed) ≤ rand (g i) (-0.3) 0.3 * e.speed * dt := by
      intro i h0 h1
      have hr1 : -(0.3 : ℝ) ≤ rand (g i) (-0.3) 0.3 := by unfold rand; nlinarith
      have hr2 : rand (g i) (-0.3) 0.3 ≤ 0.3 := by unfold rand; nlinarith
      constructor
      · nlinarith [mul_nonneg (mul_nonneg (by linarith : (0:ℝ) ≤ 0.3 - rand (g i) (-0.3) 0.3) hs0) hdt0,
          mul_nonneg hs0 (by linarith : (0:ℝ) ≤ 0.033 - dt)]
      · nlinarith [mul_nonneg (mul_nonneg (by linarith : (0:ℝ) ≤ rand (g i) (-0.3) 0.3 + 0.3) hs0) hdt0,
          mul_nonneg hs0 (by linarith : (0:ℝ) ≤ 0.033 - dt)]
    have ha := hbound (k + 1) hb1.1 hb1.2
    have hb := hbound (k + 2) hb2.1 hb2.2
    have ha2 : (rand (g (k + 1)) (-0.3) 0.3 * e.speed * dt) ^ 2 ≤ (0.01 * e.speed) ^ 2 :=
      sq_le_sq' ha.2 ha.1
    have hb2' : (rand (g (k + 2)) (-0.3) 0.3 * e.speed * dt) ^ 2 ≤ (0.01 * e.speed) ^ 2 :=
      sq_le_sq' hb.2 hb.1
    have hA : 1 ≤ (e.vel.x + rand (g (k + 1)) (-0.3) 0.3 * e.speed * dt) ^ 2 +
        (e.vel.y + rand (g (k + 2)) (-0.3) 0.3 * e.speed * dt) ^ 2 := by
      nlinarith [sq_nonneg (e.vel.x + 10 * (rand (g (k + 1)) (-0.3) 0.3 * e.speed * dt)),
        sq_nonneg (e.vel.y + 10 * (rand (g (k + 2)) (-0.3) 0.3 * e.speed * dt)),
        sq_nonneg (e.speed - 2), ha2, hb2', hx2]
    have hhyp : 1 ≤ hypot (e.vel.x + rand (g (k + 1)) (-0.3) 0.3 * e.speed * dt)
        (e.vel.y + rand (g (k + 2)) (-0.3) 0.3 * e.speed * dt) := by
      have h1 := Real.sqrt_le_sqrt hA
      rwa [Real.sqrt_one] at h1
    dsimp only
    rw [max_eq_right hhyp, hypot_div_mul _ _ _ _ (by linarith) hs0,
      div_self (ne_of_gt (by linarith)), one_mul]
  · exact hv
  · exact hv

/-- C6 (amended): an enemy's velocity magnitude equals its assigned speed
(i) at spawn, whenever the sampled heading is not the zero vector, and
(ii) after every enemy-loop tick, provided the tick does not leave the
enemy seeking with the player's center strictly within distance 1 of its
own center — in that clamped close-range seek the magnitude drops below the
assigned speed (see the counterexample).  The assigned speed itself is
never rewritten.  In exact arithmetic no exception at mode-switch instants
is needed. -/
theorem velocity_matches_speed_outside_clamp :
    (∀ (level : ℕ) (eligible : Bool) (g : ℕ → ℝ) (items : List Box) (k : ℕ),
      hypot (rand (g ((randomNonOverlappingPos 80 items g 1000 k).2 + 1)) (-1) 1)
          (rand (g ((randomNonOverlappingPos 80 items g 1000 k).2 + 2)) (-1) 1) ≠ 0 →
      (∀ i, 0 ≤ g i ∧ g i < 1) →
      hypot (placeOneEnemy level (themeForLevel level) eligible g items k).1.vel.x
          (placeOneEnemy level (themeForLevel level) eligible g items k).1.vel.y =
        (placeOneEnemy level (themeForLevel level) eligible g items k).1.speed) ∧
    (∀ (player : Vec) (dt : ℝ) (e : Enemy) (g : ℕ → ℝ) (k : ℕ),
      hypot e.vel.x e.vel.y = e.speed → 2 ≤ e.speed → 0 ≤ dt → dt ≤ 0.033 →
      (∀ i, 0 ≤ g i ∧ g i < 1) →
      ((steerEnemy player e).mode = EnemyMode.seek → 1 ≤ distToPlayer player e) →
      hypot (stepEnemy player dt e g k).1.vel.x (stepEnemy player dt e g k).1.vel.y =
          e.speed ∧
        (stepEnemy player dt e g k).1.speed = e.speed) := by
  constructor
  · intro level eligible g items k hnz hg
    simp only [placeOneEnemy]
    rw [if_neg hnz]
    have hpos : 0 < hypot (rand (g ((randomNonOverlappingPos 80 items g 1000 k).2 + 1)) (-1) 1)
        (rand (g ((randomNonOverlappingPos 80 items g 1000 k).2 + 2)) (-1) 1) :=
      (hypot_nonneg _ _).lt_of_ne' hnz
    have hb := (hg ((randomNonOverlappingPos 80 items g 1000 k).2)).1
    have hspd : 0 ≤ ENEMY_SPEED_BASE + (themeForLevel level).speedBonus +
        (level : ℝ) * 10 + rand (g ((randomNonOverlappingPos 80 items g 1000 k).2)) (-10) 10 := by
      have hbonus := themeForLevel_speedBonus_nonneg level
      have hlevel : (0 : ℝ) ≤ (level : ℝ) * 10 := by positivity
      unfold rand ENEMY_SPEED_BASE
      nlinarith
    rw [hypot_div_mul _ _ _ _ hpos hspd, div_self (ne_of_gt hpos), one_mul]
  · intro player dt e g k hv hs hdt0 hdt hg hfar
    have hsteer := steerEnemy_vel_norm player e hv (by linarith) hfar
    have hjit := jitterWander_vel_norm dt (steerEnemy player e) g k
      (by rw [hsteer, steerEnemy_speed]) (by rw [steerEnemy_speed]; exact hs) hdt0 hdt hg
    constructor
    · simp only [stepEnemy]
      rw [integrateEnemy_vel_norm, hjit, steerEnemy_speed]
    · exact stepEnemy_speed player dt e g k

/-- Witness for C6 (amended): part (i) at a concrete nonzero heading sample
and part (ii) on the concrete enemy `eNorm` moving at speed 5. -/
theorem velocity_matches_speed_outside_clamp_witness :
    (hypot (rand (gThreeQ ((randomNonOverlappingPos 80 [] gThreeQ 1000 0).2 + 1)) (-1) 1)
        (rand (gThreeQ ((randomNonOverlappingPos 80 [] gThreeQ 1000 0).2 + 2)) (-1) 1) ≠ 0 ∧
      hypot (placeOneEnemy 1 (themeForLevel 1) false gThreeQ [] 0).1.vel.x
          (placeOneEnemy 1 (themeForLevel 1) false gThreeQ [] 0).1.vel.y =
        (placeOneEnemy 1 (themeForLevel 1) false gThreeQ [] 0).1.speed) ∧
    (hypot eNorm.vel.x eNorm.vel.y = eNorm.speed ∧
      hypot (stepEnemy ⟨0, 0⟩ (1 / 100) eNorm gHalf 0).1.vel.x
          (stepEnemy ⟨0, 0⟩ (1 / 100) eNorm gHalf 0).1.vel.y = eNorm.speed ∧
      (stepEnemy ⟨0, 0⟩ (1 / 100) eNorm gHalf 0).1.speed = eNorm.speed) := by
  have hnz : hypot (rand (gThreeQ ((randomNonOverlappingPos 80 [] gThreeQ 1000 0).2 + 1)) (-1) 1)
      (rand (gThreeQ ((randomNonOverlappingPos 80 [] gThreeQ 1000 0).2 + 2)) (-1) 1) ≠ 0 := by
    have h12 : ∀ i : ℕ, rand (gThreeQ i) (-1) 1 = 1 / 2 := fun i => by
      norm_num [rand, gThreeQ]
    rw [h12, h12]
    exact ne_of_gt (Real.sqrt_pos.2 (by norm_num))
  have hgq : ∀ i, 0 ≤ gThreeQ i ∧ gThreeQ i < 1 := fun i => by norm_num [gThreeQ]
  have hgh : ∀ i, 0 ≤ gHalf i ∧ gHalf i < 1 := fun i => by norm_num [gHalf]
  have hv : hypot eNorm.vel.x eNorm.vel.y = eNorm.speed :=
    hypot_eq_of (by norm_num [eNorm]) (by norm_num [eNorm])
  have hfar : (steerEnemy ⟨0, 0⟩ eNorm).mode = EnemyMode.seek →
      1 ≤ distToPlayer ⟨0, 0⟩ eNorm := by
    intro h
    rw [steerEnemy_of_not_willSeek _ (show eNorm.willSeek = false from rfl)] at h
    simp [eNorm] at h
  have h2 := velocity_matches_speed_outside_clamp.2 ⟨0, 0⟩ (1 / 100) eNorm gHalf 0 hv
    (by norm_num [eNorm]) (by norm_num) (by norm_num) hgh hfar
  exact ⟨⟨hnz, velocity_matches_speed_outside_clamp.1 1 false gThreeQ [] 0 hnz hgq⟩,
    hv, h2.1, h2.2⟩

/-- Counterexample for C6 as literally stated: `eClose` moves at exactly its
assigned speed 100 and undergoes no mode switch during the tick (it stays in
seek mode), yet after the tick its velocity magnitude is 50 ≠ 100 — the
`Math.max(1, …)` clamp at center distance 1/2 scales the seek velocity below
the assigned speed. -/
theorem seek_clamp_breaks_speed_invariant :
    hypot eClose.vel.x eClose.vel.y = eClose.speed ∧
      (stepEnemy pClose (1 / 100) eClose gHalf 0).1.mode = eClose.mode ∧
      hypot (stepEnemy pClose (1 / 100) eClose gHalf 0).1.vel.x
        (stepEnemy pClose (1 / 100) eClose gHalf 0).1.vel.y ≠ eClose.speed := by
  have hdx : (seekDelta pClose eClose).x = 0.3 := by
    norm_num [seekDelta, pClose, eClose, PLAYER_SIZE]
  have hdy : (seekDelta pClose eClose).y = 0.4 := by
    norm_num [seekDelta, pClose, eClose, PLAYER_SIZE]
  have h05 : hypot (0.3 : ℝ) 0.4 = 0.5 := hypot_eq_of (by norm_num) (by norm_num)
  have hsteer : steerEnemy pClose eClose = eClamped := by
    simp only [steerEnemy]
    rw [if_pos (show eClose.willSeek = true from rfl), hdx, hdy, h05]
    rw [if_neg (show ¬(eClose.mode = EnemyMode.wander ∧ (0.5 : ℝ) < eClose.detectRadius) from
      fun hc => by cases hc.1)]
    rw [if_neg (show ¬(eClose.mode = EnemyMode.seek ∧ (0.5 : ℝ) > eClose.detectRadius * 1.25) from
      fun hc => by norm_num [eClose] at hc)]
    rw [if_pos (show eClose.mode = EnemyMode.seek from rfl)]
    rw [show max (1 : ℝ) 0.5 = 1 from max_eq_left (by norm_num)]
    norm_num [eClose, eClamped, Enemy.mk.injEq, Vec.mk.injEq]
  have hstep : (stepEnemy pClose (1 / 100) eClose gHalf 0).1 =
      integrateEnemy (1 / 100) eClamped := by
    simp only [stepEnemy]
    rw [hsteer, jitterWander_of_seek _ _ _ _ (show eClamped.mode = EnemyMode.seek from rfl)]
  have hivel : (integrateEnemy (1 / 100) eClamped).vel = ⟨30, 40⟩ := by
    simp only [integrateEnemy]
    norm_num [eClamped, CANVAS_LOGICAL, Vec.mk.injEq]
  refine ⟨hypot_eq_of (by norm_num [eClose]) (by norm_num [eClose]), ?_, ?_⟩
  · rw [hstep, integrateEnemy_mode]
    rfl
  · rw [hstep]
    have h50 : hypot (integrateEnemy (1 / 100) eClamped).vel.x
        (integrateEnemy (1 / 100) eClamped).vel.y = 50 := by
      rw [hivel]
      exact hypot_eq_of (by norm_num) (by norm_num)
    rw [h50]
    norm_num [eClose]

/-! ## C8 — pairwise non-overlap at spawn without fallback -/

/-- An accepted placement's pad-sized test box is disjoint from every
previously placed item. -/
lemma placePosCore_clear (pad : ℝ) (existing : List Box) (g : ℕ → ℝ) :
    ∀ (fuel k : ℕ) (v : Vec), (placePosCore pad existing g fuel k).1 = some v →
      ∀ b ∈ existing, ¬ aabb b ⟨v.x - pad / 2, v.y - pad / 2, pad, pad⟩ := by
  intro fuel
  induction fuel with
  | zero => intro k v h; exact absurd h (by simp [placePosCore])
  | succ fuel ih =>
    intro k v h
    simp only [placePosCore] at h
    by_cases hover :
        ∃ e ∈ existing, aabb e
          ⟨rand (g k) pad (CANVAS_LOGICAL.x - pad) - pad / 2,
           rand (g (k + 1)) pad (CANVAS_LOGICAL.y - pad) - pad / 2, pad, pad⟩
    · rw [if_pos hover] at h
      exact ih (k + 2) v h
    · rw [if_neg hover] at h
      simp only [Prod.fst] at h
      have hv : v = ⟨rand (g k) pad (CANVAS_LOGICAL.x - pad),
          rand (g (k + 1)) pad (CANVAS_LOGICAL.y - pad)⟩ := by
        cases h; rfl
      subst hv
      intro b hb hab
      exact hover ⟨b, hb, hab⟩

/-- Overlap with a contained box implies overlap with the containing box. -/
lemma aabb_of_contained {small big e : Box}
    (hx1 : big.x ≤ small.x) (hx2 : small.x + small.w ≤ big.x + big.w)
    (hy1 : big.y ≤ small.y) (hy2 : small.y + small.h ≤ big.y + big.h)
    (h : aabb e small) : aabb e big := by
  obtain ⟨h1, h2, h3, h4⟩ := h
  exact ⟨by linarith, by linarith, by linarith, by linarith⟩

/-- Theme enemy sizes never exceed 26. -/
lemma themeForLevel_enemySize_le (level : ℕ) : (themeForLevel level).enemySize ≤ 26 := by
  simp only [themeForLevel]
  split_ifs <;> norm_num

/-- Evaluate `jsRound` from bracketing bounds. -/
lemma jsRound_eq {x : ℝ} {z : ℤ} (h1 : (z : ℝ) ≤ x + 1 / 2) (h2 : x + 1 / 2 < z + 1) :
    jsRound x = z := by
  unfold jsRound
  norm_cast
  rw [Int.floor_eq_iff]
  exact ⟨h1, by exact_mod_cast h2⟩

/-- For game levels (≤ 5), an enemy's scaled spawn size stays within the
80-unit placement padding, so the recorded spawn box sits inside the tested
pad box. -/
lemma scaledSize_le_80 (level : ℕ) (hl : level ≤ 5) :
    jsRound ((themeForLevel level).enemySize + ((level : ℝ) - 1) * 2) ≤ 80 := by
  have h1 := themeForLevel_enemySize_le level
  have h2 : ((level : ℝ)) ≤ 5 := by exact_mod_cast hl
  have h3 : (themeForLevel level).enemySize + ((level : ℝ) - 1) * 2 + 1 / 2 ≤ 80 := by
    linarith
  calc jsRound ((themeForLevel level).enemySize + ((level : ℝ) - 1) * 2)
      ≤ (themeForLevel level).enemySize + ((level : ℝ) - 1) * 2 + 1 / 2 := Int.floor_le _
    _ ≤ 80 := h3

/-- The enemy loop, run with every placement inside its retry budget over a
pairwise-disjoint item list, extends the item list by exactly the spawn
boxes of the produced enemies and keeps it pairwise disjoint. -/
lemma placeEnemies_disjoint (level : ℕ) (theme : Theme) (eligible : Bool) (g : ℕ → ℝ)
    (hsize : jsRound (theme.enemySize + ((level : ℝ) - 1) * 2) ≤ 80) :
    ∀ (n : ℕ) (items : List Box) (k : ℕ),
      items.Pairwise (fun a b => ¬ aabb a b) →
      placeEnemiesOk level theme eligible g n items k →
      (placeEnemies level theme eligible g n items k).2.1 =
        items ++ (placeEnemies level theme eligible g n items k).1.map spawnBox ∧
      (placeEnemies level theme eligible g n items k).2.1.Pairwise
        fun a b => ¬ aabb a b := by
  intro n
  induction n with
  | zero => intro items k hp _; exact ⟨by simp [placeEnemies], hp⟩
  | succ n ih =>
    intro items k hp hok
    simp only [placeEnemiesOk, placementSucceeded] at hok
    obtain ⟨hok1, hok2⟩ := hok
    obtain ⟨v, hv⟩ := Option.isSome_iff_exists.1 hok1
    have hpos : (randomNonOverlappingPos 80 items g 1000 k).1 = v := by
      simp only [randomNonOverlappingPos, hv, Option.getD_some]
    have hclear := placePosCore_clear 80 items g 1000 k v hv
    have hsb : spawnBox (placeOneEnemy level theme eligible g items k).1 =
        ⟨v.x - jsRound (theme.enemySize + ((level : ℝ) - 1) * 2) / 2,
         v.y - jsRound (theme.enemySize + ((level : ℝ) - 1) * 2) / 2,
         jsRound (theme.enemySize + ((level : ℝ) - 1) * 2),
         jsRound (theme.enemySize + ((level : ℝ) - 1) * 2)⟩ := by
      simp only [spawnBox, placeOneEnemy]
      rw [hpos]
    have hsmall : ∀ b ∈ items,
        ¬ aabb b (spawnBox (placeOneEnemy level theme eligible g items k).1) := by
      intro b hb hab
      rw [hsb] at hab
      refine hclear b hb (aabb_of_contained ?_ ?_ ?_ ?_ hab) <;> dsimp only <;>
        linarith [hsize]
    have hitems1 : (placeOneEnemy level theme eligible g items k).2.1 =
        items ++ [spawnBox (placeOneEnemy level theme eligible g items k).1] := by
      simp only [placeOneEnemy, spawnBox]
    have hpair1 : ((placeOneEnemy level theme eligible g items k).2.1).Pairwise
        fun a b => ¬ aabb a b := by
      rw [hitems1]
      refine List.pairwise_append.2 ⟨hp, List.pairwise_singleton _ _, ?_⟩
      intro a ha b hb
      simp only [List.mem_singleton] at hb
      subst hb
      exact hsmall a ha
    have hrec := ih (placeOneEnemy level theme eligible g items k).2.1
      (placeOneEnemy level theme eligible g items k).2.2 hpair1 hok2
    constructor
    · simp only [placeEnemies]
      rw [hrec.1, hitems1]
      simp [List.append_assoc]
    · simp only [placeEnemies]
      exact hrec.2

/-- C8: for every generated level (the game generates levels 1 through 5)
in which no placement call exhausted its retry budget, the player's box,
the goal's box on placement, and every enemy's spawn box are pairwise
non-overlapping. -/
theorem spawn_layout_pairwise_disjoint (level : ℕ) (g : ℕ → ℝ) (k : ℕ)
    (hlv : level ≤ 5) (hnf : noFallback level g k) :
    (spawnBoxes (startLevel level g k).1).Pairwise fun a b => ¬ aabb a b := by
  simp only [noFallback, placementSucceeded] at hnf
  obtain ⟨hd, he⟩ := hnf
  obtain ⟨v, hv⟩ := Option.isSome_iff_exists.1 hd
  have hpos : (randomNonOverlappingPos 120
      [⟨40, CANVAS_LOGICAL.y - 60, PLAYER_SIZE, PLAYER_SIZE⟩] g 1000 k).1 = v := by
    simp only [randomNonOverlappingPos, hv, Option.getD_some]
  have hclear := placePosCore_clear 120
    [⟨40, CANVAS_LOGICAL.y - 60, PLAYER_SIZE, PLAYER_SIZE⟩] g 1000 k v hv
  have hpair2 : ([⟨40, CANVAS_LOGICAL.y - 60, PLAYER_SIZE, PLAYER_SIZE⟩,
      ⟨v.x - 12, v.y - 12, 24, 24⟩] : List Box).Pairwise fun a b => ¬ aabb a b := by
    refine List.pairwise_cons.2 ⟨?_, List.pairwise_singleton _ _⟩
    intro b hb
    simp only [List.mem_singleton] at hb
    subst hb
    intro hab
    exact hclear _ (by simp)
      (aabb_of_contained (by dsimp only; linarith) (by dsimp only; linarith)
        (by dsimp only; linarith) (by dsimp only; linarith) hab)
  rw [hpos] at he
  have hmain := placeEnemies_disjoint level (themeForLevel level)
    (((themeForLevel level).name != "Wind") && homingKinds.contains (themeForLevel level).enemyKind)
    g (scaledSize_le_80 level hlv) (countForLevel level)
    [⟨40, CANVAS_LOGICAL.y - 60, PLAYER_SIZE, PLAYER_SIZE⟩, ⟨v.x - 12, v.y - 12, 24, 24⟩]
    (randomNonOverlappingPos 120
      [⟨40, CANVAS_LOGICAL.y - 60, PLAYER_SIZE, PLAYER_SIZE⟩] g 1000 k).2
    hpair2 (by simpa using he)
  have hsl : spawnBoxes (startLevel level g k).1 =
      (placeEnemies level (themeForLevel level)
        (((themeForLevel level).name != "Wind") &&
          homingKinds.contains (themeForLevel level).enemyKind)
        g (countForLevel level)
        [⟨40, CANVAS_LOGICAL.y - 60, PLAYER_SIZE, PLAYER_SIZE⟩, ⟨v.x - 12, v.y - 12, 24, 24⟩]
        (randomNonOverlappingPos 120
          [⟨40, CANVAS_LOGICAL.y - 60, PLAYER_SIZE, PLAYER_SIZE⟩] g 1000 k).2).2.1 := by
    rw [hmain.1]
    simp only [spawnBoxes, startLevel, hpos]
    simp [List.cons_append]
  rw [hsl]
  exact hmain.2

/-- One unfolding step of the placement retry loop. -/
lemma placePosCore_succ (pad : ℝ) (existing : List Box) (g : ℕ → ℝ) (fuel k : ℕ) :
    placePosCore pad existing g (fuel + 1) k =
      if ∃ e ∈ existing, aabb e
          ⟨rand (g k) pad (CANVAS_LOGICAL.x - pad) - pad / 2,
           rand (g (k + 1)) pad (CANVAS_LOGICAL.y - pad) - pad / 2, pad, pad⟩ then
        placePosCore pad existing g fuel (k + 2)
      else (some ⟨rand (g k) pad (CANVAS_LOGICAL.x - pad),
        rand (g (k + 1)) pad (CANVAS_LOGICAL.y - pad)⟩, k + 2) := rfl

/-- Witness for C8: under the stream `gC8`, the level-1 run places the
diamond at (450, 270) and enemies at (80, 80), (746, 422) and (265, 175),
every call on its first attempt, so `noFallback` holds concretely and the
spawn boxes are pairwise disjoint. -/
theorem spawn_layout_pairwise_disjoint_witness :
    ((1 : ℕ) ≤ 5 ∧ noFallback 1 gC8 0) ∧
      (spawnBoxes (startLevel 1 gC8 0).1).Pairwise fun a b => ¬ aabb a b := by
  have hs20 : jsRound ((themeForLevel 1).enemySize + (((1 : ℕ) : ℝ) - 1) * 2) = 20 := by
    have h := jsRound_eq
      (x := (themeForLevel 1).enemySize + (((1 : ℕ) : ℝ) - 1) * 2) (z := 20)
      (by norm_num [themeForLevel]) (by norm_num [themeForLevel])
    simpa using h
  have hcd : placePosCore 120 [(⟨40, 480, 20, 20⟩ : Box)] gC8 1000 0 =
      (some ⟨450, 270⟩, 2) := by
    rw [show (1000 : ℕ) = 999 + 1 from rfl, placePosCore_succ]
    split_ifs with h
    · norm_num [gC8, rand, aabb, CANVAS_LOGICAL] at h
    · norm_num [gC8, rand, CANVAS_LOGICAL, Prod.ext_iff, Vec.mk.injEq]
  have hpd : randomNonOverlappingPos 120 [(⟨40, 480, 20, 20⟩ : Box)] gC8 1000 0 =
      (⟨450, 270⟩, 2) := by
    rw [show randomNonOverlappingPos 120 [(⟨40, 480, 20, 20⟩ : Box)] gC8 1000 0 =
      ((placePosCore 120 [(⟨40, 480, 20, 20⟩ : Box)] gC8 1000 0).1.getD ⟨120, 120⟩,
        (placePosCore 120 [(⟨40, 480, 20, 20⟩ : Box)] gC8 1000 0).2) from rfl, hcd]
    rfl
  have hc1 : placePosCore 80
      [(⟨40, 480, 20, 20⟩ : Box), ⟨438, 258, 24, 24⟩] gC8 1000 2 =
      (some ⟨80, 80⟩, 4) := by
    rw [show (1000 : ℕ) = 999 + 1 from rfl, placePosCore_succ]
    split_ifs with h
    · norm_num [gC8, rand, aabb, CANVAS_LOGICAL] at h
    · norm_num [gC8, rand, CANVAS_LOGICAL, Prod.ext_iff, Vec.mk.injEq]
  have hp1 : randomNonOverlappingPos 80
      [(⟨40, 480, 20, 20⟩ : Box), ⟨438, 258, 24, 24⟩] gC8 1000 2 =
      (⟨80, 80⟩, 4) := by
    rw [show randomNonOverlappingPos 80
        [(⟨40, 480, 20, 20⟩ : Box), ⟨438, 258, 24, 24⟩] gC8 1000 2 =
      ((placePosCore 80 [(⟨40, 480, 20, 20⟩ : Box), ⟨438, 258, 24, 24⟩] gC8 1000 2).1.getD
          ⟨80, 80⟩,
        (placePosCore 80 [(⟨40, 480, 20, 20⟩ : Box), ⟨438, 258, 24, 24⟩] gC8 1000 2).2)
      from rfl, hc1]
    rfl
  have ho1 : (placeOneEnemy 1 (themeForLevel 1) false gC8
      [(⟨40, 480, 20, 20⟩ : Box), ⟨438, 258, 24, 24⟩] 2).2 =
      ([(⟨40, 480, 20, 20⟩ : Box), ⟨438, 258, 24, 24⟩, ⟨70, 70, 20, 20⟩], 7) := by
    simp only [placeOneEnemy, hp1, hs20]
    norm_num [Prod.ext_iff, Box.mk.injEq]
  have hc2 : placePosCore 80
      [(⟨40, 480, 20, 20⟩ : Box), ⟨438, 258, 24, 24⟩, ⟨70, 70, 20, 20⟩] gC8 1000 7 =
      (some ⟨746, 422⟩, 9) := by
    rw [show (1000 : ℕ) = 999 + 1 from rfl, placePosCore_succ]
    split_ifs with h
    · norm_num [gC8, rand, aabb, CANVAS_LOGICAL] at h
    · norm_num [gC8, rand, CANVAS_LOGICAL, Prod.ext_iff, Vec.mk.injEq]
  have hp2 : randomNonOverlappingPos 80
      [(⟨40, 480, 20, 20⟩ : Box), ⟨438, 258, 24, 24⟩, ⟨70, 70, 20, 20⟩] gC8 1000 7 =
      (⟨746, 422⟩, 9) := by
    rw [show randomNonOverlappingPos 80
        [(⟨40, 480, 20, 20⟩ : Box), ⟨438, 258, 24, 24⟩, ⟨70, 70, 20, 20⟩] gC8 1000 7 =
      ((placePosCore 80 [(⟨40, 480, 20, 20⟩ : Box), ⟨438, 258, 24, 24⟩, ⟨70, 70, 20, 20⟩]
            gC8 1000 7).1.getD ⟨80, 80⟩,
        (placePosCore 80 [(⟨40, 480, 20, 20⟩ : Box), ⟨438, 258, 24, 24⟩, ⟨70, 70, 20, 20⟩]
            gC8 1000 7).2)
      from rfl, hc2]
    rfl
  have ho2 : (placeOneEnemy 1 (themeForLevel 1) false gC8
      [(⟨40, 480, 20, 20⟩ : Box), ⟨438, 258, 24, 24⟩, ⟨70, 70, 20, 20⟩] 7).2 =
      ([(⟨40, 480, 20, 20⟩ : Box), ⟨438, 258, 24, 24⟩, ⟨70, 70, 20, 20⟩,
        ⟨736, 412, 20, 20⟩], 12) := by
    simp only [placeOneEnemy, hp2, hs20]
    norm_num [Prod.ext_iff, Box.mk.injEq]
  have hc3 : placePosCore 80
      [(⟨40, 480, 20, 20⟩ : Box), ⟨438, 258, 24, 24⟩, ⟨70, 70, 20, 20⟩,
        ⟨736, 412, 20, 20⟩] gC8 1000 12 = (some ⟨265, 175⟩, 14) := by
    rw [show (1000 : ℕ) = 999 + 1 from rfl, placePosCore_succ]
    split_ifs with h
    · norm_num [gC8, rand, aabb, CANVAS_LOGICAL] at h
    · norm_num [gC8, rand, CANVAS_LOGICAL, Prod.ext_iff, Vec.mk.injEq]
  have helig : ((themeForLevel 1).name != "Wind" &&
      homingKinds.contains (themeForLevel 1).enemyKind) = false := rfl
  have hnf : noFallback 1 gC8 0 := by
    simp only [noFallback, placementSucceeded]
    norm_num [CANVAS_LOGICAL, PLAYER_SIZE]
    rw [helig]
    constructor
    · rw [hcd]; rfl
    · rw [hpd, show countForLevel 1 = 3 from rfl]
      norm_num
      rw [show (3 : ℕ) = 2 + 1 from rfl]
      simp only [placeEnemiesOk, placementSucceeded]
      refine ⟨by rw [hc1]; rfl, ?_⟩
      simp only [ho1]
      refine ⟨by rw [hc2]; rfl, ?_⟩
      simp only [ho2]
      exact ⟨by rw [hc3]; rfl, trivial⟩
  exact ⟨⟨by norm_num, hnf⟩, spawn_layout_pairwise_disjoint 1 gC8 0 (by norm_num) hnf⟩

end DiamondBandit
